import Mathlib

/-!
Verification of `src/utils/functions.ts` of uwebsockets-js-helpers.

The file shallowly embeds the request-body decoder: buffers are lists of
bytes (`List Nat`), the push-delivered transport stream is a list of
`(chunk, isLast)` deliveries, the busboy tokenizer is an external
collaborator whose emitted events are an input of the model, and the
settle-once behaviour of JavaScript promises is made explicit as an
`Option (Except ...)` field that only the first settlement may fill.
-/

set_option maxRecDepth 10000

/-- A JSON-like value: the shape of the objects the decoder builds with
lodash `set`/`get`/`has` (header map, `{fields, files}` body, query). -/
inductive JVal where
  | null
  | str (s : String)
  | num (n : Int)
  | bool (b : Bool)
  | arr (xs : List JVal)
  | obj (fields : List (String × JVal))

/-- ASCII lowercase conversion of one character (`String.prototype.toLowerCase`
on the ASCII header names this code handles). -/
def lcChar (c : Char) : Char :=
  if 65 ≤ c.toNat ∧ c.toNat ≤ 90 then Char.ofNat (c.toNat + 32) else c

/-- Models the JavaScript `toLowerCase()` used on header names. -/
def toLowerM (s : String) : String :=
  String.mk (s.data.map lcChar)

/-- Character membership in a string. -/
def containsCharM (s : String) (c : Char) : Bool :=
  s.data.any (fun x => decide (x = c))

/-- ASCII whitespace, for modelling `String.prototype.trim`. -/
def isWsChar (c : Char) : Bool :=
  decide (c = ' ') || decide (c = '\t') || decide (c = '\n') || decide (c = '\r')

/-- Models the JavaScript `trim()` applied to the content type. -/
def trimM (s : String) : String :=
  String.mk (((s.data.dropWhile isWsChar).reverse.dropWhile isWsChar).reverse)

/-- Models `String.prototype.startsWith`. -/
def startsWithM (s pre : String) : Bool :=
  decide (s.data.take pre.data.length = pre.data)

/-- Numeric value of a decimal digit character. -/
def digitVal (c : Char) : Nat := c.toNat - 48

/-- Decimal parse of an all-digit string, used to model lodash array-index
interpretation of path segments. -/
def toNatM (s : String) : Option Nat :=
  if s.data ≠ [] ∧ s.data.all Char.isDigit = true then
    some (s.data.foldl (fun n c => 10 * n + digitVal c) 0)
  else none

/-- Association-list lookup used for object property access. -/
def objGet : List (String × JVal) → String → Option JVal
  | [], _ => none
  | (k, v) :: rest, key => if k = key then some v else objGet rest key

/-- Association-list update preserving insertion order (new keys appended). -/
def objSet : List (String × JVal) → String → JVal → List (String × JVal)
  | [], key, v => [(key, v)]
  | (k, w) :: rest, key, v =>
      if k = key then (k, v) :: rest else (k, w) :: objSet rest key v

/-- Models lodash `isIndex` for path segments: a canonical decimal numeral. -/
def isIndexKey (s : String) : Bool :=
  decide (s.data ≠ []) && s.data.all Char.isDigit &&
    (decide (s.data = ['0']) || decide (s.data.head? ≠ some '0'))

/-- Reads the characters of one `[...]` path segment; returns the segment
and the remaining characters after the closing bracket. -/
def readBracket : List Char → List Char × List Char
  | [] => ([], [])
  | ']' :: rest => ([], rest)
  | c :: rest =>
      let p := readBracket rest
      (c :: p.1, p.2)

/-- Skips the `.` that may follow a closing bracket in a lodash path. -/
def afterBracket : List Char → List Char
  | '.' :: rest => rest
  | rest => rest

/-- Fueled worker for `stringToPath`: splits on `.` and on `[...]` groups.
Fuel is an upper bound on the characters left, so it never runs out when
called with `length + 1`. -/
def pathSegsGo : Nat → List Char → List Char → List String
  | 0, _, _ => []
  | _ + 1, [], cur => [String.mk cur.reverse]
  | fuel + 1, '.' :: rest, cur => String.mk cur.reverse :: pathSegsGo fuel rest []
  | fuel + 1, '[' :: rest, cur =>
      let p := readBracket rest
      let tail := if p.2.isEmpty then [] else pathSegsGo fuel (afterBracket p.2) []
      if cur.isEmpty then String.mk p.1 :: tail
      else String.mk cur.reverse :: String.mk p.1 :: tail
  | fuel + 1, c :: rest, cur => pathSegsGo fuel rest (c :: cur)

/-- Models lodash `stringToPath` on the deep-path names this code produces
(dot-separated segments and unquoted bracket segments). -/
def stringToPath (s : String) : List String :=
  pathSegsGo (s.data.length + 1) s.data []

/-- Models lodash `castPath`: a name containing a dot or a bracket is a deep
path; anything else is a single literal key. -/
def castPath (s : String) : List String :=
  if containsCharM s '.' || containsCharM s '[' then stringToPath s else [s]

/-- Child access for one path segment (object property or array index). -/
def childGet : JVal → String → Option JVal
  | .obj fs, k => objGet fs k
  | .arr xs, k =>
      match toNatM k with
      | some i => xs.get? i
      | none => none
  | _, _ => none

/-- Walks a resolved path, as lodash `baseGet` does. -/
def getPath : JVal → List String → Option JVal
  | v, [] => some v
  | v, k :: rest =>
      match childGet v k with
      | some c => getPath c rest
      | none => none

/-- Containers (objects and arrays) survive when `set` walks through them;
primitives are replaced by a fresh container. -/
def JVal.isContainer : JVal → Bool
  | .obj _ => true
  | .arr _ => true
  | _ => false

/-- Fresh container created by `set` for a missing intermediate segment:
an array when the next segment is an index, else an object. -/
def freshChild (nextKey : String) : JVal :=
  if isIndexKey nextKey then .arr [] else .obj []

/-- Sets an array element, padding missing slots with `null`. -/
def arrSet : List JVal → Nat → JVal → List JVal
  | [], 0, v => [v]
  | _ :: rest, 0, v => v :: rest
  | [], i + 1, v => .null :: arrSet [] i v
  | x :: rest, i + 1, v => x :: arrSet rest i v

/-- Assigns one key on a container; a non-container target is returned
unchanged (lodash would set an invisible property on a primitive wrapper). -/
def assignKey : JVal → String → JVal → JVal
  | .obj fs, k, v => .obj (objSet fs k v)
  | .arr xs, k, v =>
      match toNatM k with
      | some i => .arr (arrSet xs i v)
      | none => .arr xs
  | root, _, _ => root

/-- Models lodash `baseSet`: walks the path, materialising fresh containers
for missing or primitive intermediate values. -/
def setPath : JVal → List String → JVal → JVal
  | root, [], _ => root
  | root, [k], v => assignKey root k v
  | root, k :: k2 :: rest, v =>
      let child :=
        match childGet root k with
        | some c => if c.isContainer then c else freshChild k2
        | none => freshChild k2
      assignKey root k (setPath child (k2 :: rest) v)

/-- Models lodash `set(object, name, value)`. -/
def lodashSet (root : JVal) (name : String) (v : JVal) : JVal :=
  setPath root (castPath name) v

/-- Models lodash `get(object, name)` (without the default argument). -/
def lodashGet (root : JVal) (name : String) : Option JVal :=
  getPath root (castPath name)

/-- Models lodash `has(object, name)`. -/
def lodashHas (root : JVal) (name : String) : Bool :=
  (getPath root (castPath name)).isSome

/-- One step of the header loop of `parseData` (functions.ts lines 133-147):
lowercase the name; first occurrence stores the scalar; on a repeat, an
existing array gets the new value pushed, while a scalar is wrapped into a
one-element array (the source wraps `[val]` without appending `value`). -/
def headerStep (headers : JVal) (k value : String) : JVal :=
  let key := toLowerM k
  if lodashHas headers key then
    match lodashGet headers key with
    | some (.arr xs) => lodashSet headers key (.arr (xs ++ [.str value]))
    | some v => lodashSet headers key (.arr [v])
    | none => headers
  else
    lodashSet headers key (.str value)

/-- The header map built by `req.forEach` iteration over the transport's
header pairs, in arrival order. -/
def headersExtract (pairs : List (String × String)) : JVal :=
  pairs.foldl (fun h p => headerStep h p.1 p.2) (.obj [])

example : headersExtract [("x", "a"), ("x", "b")] = .obj [("x", .arr [.str "a"])] := rfl
example : castPath "fields.a.b" = ["fields", "a", "b"] := by decide
example : lodashSet (.obj []) "a.b" (.str "v") = .obj [("a", .obj [("b", .str "v")])] := rfl
example : lodashSet (.obj []) "a[0]" (.str "v") = .obj [("a", .arr [.str "v"])] := rfl

/-! ## The buffered materializer `stob` (functions.ts lines 36-79)

`stob` registers a `data` and an `end` listener on the stream and settles a
promise.  The embedding makes the listener state explicit and models promise
settlement as a first-write-wins `Option`: once `settled` holds a value, a
later `resolve`/`reject` call is a no-op, exactly as for a JS `Promise`.
`stob` registers no `error` listener, so an `error` event leaves its state
untouched; it is included so traces can mention it. -/

/-- Events a `Readable` can deliver to the listeners `stob` registers. -/
inductive StobEvent where
  | data (b : List Nat)
  | end_
  | errorEv
  deriving Repr, DecidableEq

/-- Listener-visible state of one `stob` call: the `hasEnded` and `buffers`
and `length` locals, the promise settlement, and whether `stream.destroy()`
was called. -/
structure StobState where
  hasEnded : Bool
  buffers : Option (List (List Nat))
  length : Nat
  settled : Option (Except String (List Nat))
  destroyed : Bool

/-- State at the start of a `stob` call. -/
def stobInit : StobState :=
  { hasEnded := false, buffers := some [], length := 0, settled := none, destroyed := false }

/-- First-write-wins promise settlement. -/
def stobSettle (s : StobState) (o : Except String (List Nat)) : StobState :=
  if s.settled.isSome then s else { s with settled := some o }

/-- The `resolve` value: mirrors the switch on the number of accumulated
chunks (zero gives an empty buffer, one is returned as it is, otherwise the
chunks are concatenated). -/
def bufferOfChunks : List (List Nat) → List Nat
  | [] => []
  | [c] => c
  | c :: rest => (c :: rest).flatten

/-- One event handled by the listeners of `stob`.  The `data` handler only
runs its body when `buffers` is non-null and the stream has not ended; it
appends the chunk and, when `maxSize` is non-zero, tracks the accumulated
length and on overflow nulls the chunk list, marks the stream ended,
destroys it and rejects.  The `end` handler marks the stream ended and, when
`buffers` is non-null, resolves with the concatenated buffer. -/
def stobStep (maxSize : Nat) (s : StobState) : StobEvent → StobState
  | .data b =>
      match s.buffers with
      | some bs =>
          if s.hasEnded then s
          else
            let bs' := bs ++ [b]
            if maxSize ≠ 0 then
              let len' := s.length + b.length
              if maxSize < len' then
                let dead := { s with buffers := none, hasEnded := true, length := len', destroyed := true }
                stobSettle dead (.error "MAX_SIZE_EXCEEDED")
              else { s with buffers := some bs', length := len' }
            else { s with buffers := some bs' }
      | none => s
  | .end_ =>
      let s' := { s with hasEnded := true }
      match s'.buffers with
      | some bs => stobSettle s' (.ok (bufferOfChunks bs))
      | none => s'
  | .errorEv => s

/-- Runs `stob`'s listeners over a trace of stream events. -/
def stobRunFrom (maxSize : Nat) (s : StobState) (events : List StobEvent) : StobState :=
  events.foldl (stobStep maxSize) s

/-- The state of `stob` after a whole trace from a fresh call. -/
def stobFinal (maxSize : Nat) (events : List StobEvent) : StobState :=
  stobRunFrom maxSize stobInit events

/-- Total byte length of a chunk sequence. -/
def totalLen : List (List Nat) → Nat
  | [] => 0
  | c :: rest => c.length + totalLen rest

/-- The event trace of a stream that delivers `chunks` and then ends
normally. -/
def chunksTrace (chunks : List (List Nat)) : List StobEvent :=
  chunks.map .data ++ [.end_]

/-- Outcome of `stob` on a stream delivering `chunks` and then ending. -/
def stobOutcome (chunks : List (List Nat)) (maxSize : Nat) : Option (Except String (List Nat)) :=
  (stobFinal maxSize (chunksTrace chunks)).settled

example : stobOutcome [[1], [2]] 2 = some (.ok [1, 2]) := rfl
example : stobOutcome [[1], [2], [3]] 2 = some (.error "MAX_SIZE_EXCEEDED") := rfl
example : stobOutcome [] 5 = some (.ok []) := rfl
example : stobOutcome [[9, 9]] 5 = some (.ok [9, 9]) := rfl

/-! ## The byte-stream bridge `ResDataToStream` (functions.ts lines 11-24)

The transport (`HttpResponse`) is modelled by the already-aborted flag the
`onAborted` registration reports and the list of `(chunk, isLast)` pairs its
`onData` registration will deliver.  A pull (`_read`) registers the `onData`
callback, which pushes a copy of every delivered chunk and pushes `null`
(end-of-stream) when `isLast` is set. -/

/-- Items a `Readable` consumer observes: a chunk, or end-of-stream. -/
inductive StreamItem where
  | chunk (b : List Nat)
  | eos
  deriving Repr, DecidableEq

/-- The transport response object. -/
structure ResM where
  aborted : Bool
  deliveries : List (List Nat × Bool)

/-- What one delivery from `res.onData` makes the bridge push. -/
def pushesOf (d : List Nat × Bool) : List StreamItem :=
  .chunk d.1 :: (if d.2 then [.eos] else [])

/-- Everything the stream produced by `ResDataToStream` pushes once its
`_read` has registered the `onData` callback.  Note that the source never
consults the abort state of the request. -/
def resDataToStreamRead (res : ResM) : List StreamItem :=
  res.deliveries.foldl (fun acc d => acc ++ pushesOf d) []

/-- Chunks the bridged stream delivers: every chunk up to and including the
one flagged `isLast`. -/
def streamChunks : List (List Nat × Bool) → List (List Nat)
  | [] => []
  | (c, true) :: _ => [c]
  | (c, false) :: rest => c :: streamChunks rest

/-- Whether the bridged stream ever signals end-of-stream. -/
def streamEnded : List (List Nat × Bool) → Bool
  | [] => false
  | (_, true) :: _ => true
  | (_, false) :: rest => streamEnded rest

/-- The `stob` event trace the bridged stream generates. -/
def stobEventsOf (res : ResM) : List StobEvent :=
  (streamChunks res.deliveries).map .data ++
    (if streamEnded res.deliveries then [.end_] else [])

/-! ## Requests, options, policy hooks, filesystem

`HttpRequest` is modelled by the data its accessors return.  The four
per-file policy hooks of `customBodyOptions` are either a static value or a
function of the file descriptor (asynchronous resolution has no observable
effect in this sequential model).  The filesystem is a map from joined paths
to nodes; `lstat` on a missing path throws, which the source catches,
leaving its `exists` flag false. -/

/-- The transport request object: what `forEach`, `getQuery`, `getMethod`
and `getUrl` return. -/
structure ReqM where
  headers : List (String × String)
  query : String
  method : String
  url : String

/-- The `FileInfo` descriptor passed to the policy hooks, together with the
chunks of the part's byte source. -/
structure FileInfoM where
  fieldname : String
  filename : String
  encoding : String
  mimetype : String
  content : List (List Nat)

/-- One policy hook slot: a static value or a function of the descriptor. -/
inductive Hook (α : Type) where
  | static (a : α)
  | func (f : FileInfoM → α)

/-- The `customBodyOptions` hook record. -/
structure CustomBodyOptionsM where
  handle : Option (Hook Bool) := none
  tmpDir : Option (Hook String) := none
  folder : Option (Hook String) := none
  saveAs : Option (Hook String) := none

/-- The `limits` part of the busboy configuration; only `fieldSize` is read
by the engine itself (for the JSON buffer ceiling). -/
structure BodyLimitsM where
  fieldSize : Option Nat := none

/-- The caller-supplied `bodyOptions`. -/
structure BodyOptionsM where
  limits : Option BodyLimitsM := none

/-- The `ParseDataOptions` configuration record; `nsp` stands for the
source's `namespace` field (a Lean keyword). -/
structure ParseDataOptionsM where
  nsp : Option String := none
  headersOpt : Option Bool := none
  bodyOpt : Option Bool := none
  queryOpt : Option Bool := none
  pathOpt : Option Bool := none
  methodOpt : Option Bool := none
  bodyOptions : Option BodyOptionsM := none
  customBodyOptions : Option CustomBodyOptionsM := none

/-- External collaborators the engine calls into: the process temp
directory, `JSON.parse` on the UTF-8 text of a buffer, and `qs.parse`. -/
structure Env where
  tmpdir : String
  jsonParse : List Nat → Except String JVal
  parseQs : String → JVal

/-- A filesystem node as seen by `lstat`: a regular file, a directory, or
anything else (for example a symbolic link). -/
inductive FsNode where
  | file (content : List Nat)
  | dir
  | other
  deriving Repr, DecidableEq

/-- Whether a node satisfies `stats.isFile() || stats.isDirectory()`. -/
def FsNode.isFileOrDir : FsNode → Bool
  | .file _ => true
  | .dir => true
  | .other => false

/-- The filesystem namespace: joined destination paths to nodes. -/
structure FsState where
  entries : List (String × FsNode)
  deriving Repr, DecidableEq

/-- Association lookup over filesystem entries. -/
def fsLookupGo : List (String × FsNode) → String → Option FsNode
  | [], _ => none
  | (q, n) :: rest, p => if q = p then some n else fsLookupGo rest p

/-- `lstat` probe: the node at a path, if the path exists. -/
def FsState.lookup (fs : FsState) (p : String) : Option FsNode :=
  fsLookupGo fs.entries p

/-- Association update for filesystem entries. -/
def fsEntriesSet : List (String × FsNode) → String → FsNode → List (String × FsNode)
  | [], p, n => [(p, n)]
  | (q, m) :: rest, p, n =>
      if q = p then (q, n) :: rest else (q, m) :: fsEntriesSet rest p n

/-- Writing a file: `open(path, 'w')` plus the sequential chunk writes plus
`close` leave the file holding the concatenated bytes (`mkdirp` directory
creation is not tracked). -/
def FsState.writeFile (fs : FsState) (p : String) (content : List Nat) : FsState :=
  ⟨fsEntriesSet fs.entries p (.file content)⟩

/-- Models Node's `path.join` on the segment lists this code builds: empty
segments vanish, the rest are joined with a slash. -/
def joinPath (parts : List String) : String :=
  String.intercalate "/" (parts.filter (fun p => p.data ≠ []))

/-- A `string` hook slot guard `if (options.customBodyOptions.x)`: absent or
empty-string static values are falsy and leave the default; a function is
applied to the descriptor. -/
def applyHookS (info : FileInfoM) (cur : String) : Option (Hook String) → String
  | none => cur
  | some (.static s) => if s.data = [] then cur else s
  | some (.func f) => f info

/-- The `handle` hook slot: a static `false` is falsy, so the guard skips it
and the default `true` survives; a function's result is used as is. -/
def applyHookB (info : FileInfoM) (cur : Bool) : Option (Hook Bool) → Bool
  | none => cur
  | some (.static b) => if b then b else cur
  | some (.func f) => f info

/-- Resolved `tmpDir` (default: the process temp directory). -/
def resolvedTmpDir (options : ParseDataOptionsM) (env : Env) (info : FileInfoM) : String :=
  match options.customBodyOptions with
  | none => env.tmpdir
  | some cb => applyHookS info env.tmpdir cb.tmpDir

/-- Resolved `folder` (default: empty). -/
def resolvedFolder (options : ParseDataOptionsM) (info : FileInfoM) : String :=
  match options.customBodyOptions with
  | none => ""
  | some cb => applyHookS info "" cb.folder

/-- Resolved `handle` flag (default: `true`). -/
def resolvedHandle (options : ParseDataOptionsM) (info : FileInfoM) : Bool :=
  match options.customBodyOptions with
  | none => true
  | some cb => applyHookB info true cb.handle

/-- Resolved file name (default: the tokenizer-supplied `filename`,
overridden by `saveAs`). -/
def resolvedFilename (options : ParseDataOptionsM) (info : FileInfoM) : String :=
  match options.customBodyOptions with
  | none => info.filename
  | some cb => applyHookS info info.filename cb.saveAs

/-- The namespace prefix applied to the resolved folder (functions.ts lines
253-256): with a truthy `namespace`, a truthy folder is prefixed by it and a
falsy folder is replaced by it. -/
def nsFolder (options : ParseDataOptionsM) (folder : String) : String :=
  match options.nsp with
  | some ns => if ns.data = [] then folder else (if folder.data ≠ [] then joinPath [ns, folder] else ns)
  | none => folder

/-- The destination `join(tmpDir, folder, filename)` a file part is written
to. -/
def destPath (options : ParseDataOptionsM) (env : Env) (info : FileInfoM) : String :=
  joinPath [resolvedTmpDir options env info,
            nsFolder options (resolvedFolder options info),
            resolvedFilename options info]

/-- Whether the destination probe finds an existing file or directory. -/
def fsHasFileOrDir (fs : FsState) (p : String) : Bool :=
  match fs.lookup p with
  | some n => n.isFileOrDir
  | none => false

/-- Result of one `file` event: the filesystem, the accumulated `ret`
object, and whether the part's byte source was consumed (by the write loop
when written, by `file.resume()` otherwise). -/
structure FileOut where
  fs : FsState
  ret : JVal
  drained : Bool

/-- The `busb.on('file')` handler (functions.ts lines 212-288): resolve the
four policy hooks, and if `handle` is set, probe the destination; when it
does not already exist as a file or directory, write every chunk
sequentially and record `files.<fieldname> = {file: path, mimetype}`; when
it does exist, skip silently.  Storage failures are swallowed by the
handler's `try`/`catch` blocks, so the handler never settles the promise;
an unwritten part is drained by `file.resume()`. -/
def fileHandler (options : ParseDataOptionsM) (env : Env) (fs : FsState) (ret : JVal)
    (info : FileInfoM) : FileOut :=
  if resolvedHandle options info then
    let path := destPath options env info
    if fsHasFileOrDir fs path then ⟨fs, ret, true⟩
    else
      ⟨fs.writeFile path info.content.flatten,
       lodashSet ret ("files." ++ info.fieldname)
         (.obj [("file", .str path), ("mimetype", .str info.mimetype)]),
       true⟩
  else ⟨fs, ret, true⟩

/-! ## The tokenized form decoder `fetchBody` (functions.ts lines 194-314)

Busboy is an external collaborator: the events it emits for a given byte
stream are an input of the model.  The handlers mutate `ret` and settle the
promise first-write-wins; handlers keep firing after settlement, exactly as
the JS listeners do. -/

/-- Events busboy (or the `finished` watcher on the source stream) can fire
at the handlers `fetchBody` registers. -/
inductive BusboyEvent where
  | field (fieldname value : String)
  | file (info : FileInfoM)
  | finish
  | limitEv
  | partsLimitEv
  | fieldsLimitEv
  | filesLimitEv
  | busboyErrorEv
  | streamErrorEv

/-- State of one `fetchBody` call: the filesystem, the `ret` accumulator and
the promise settlement. -/
structure FetchState where
  fs : FsState
  ret : JVal
  settled : Option (Except String JVal)

/-- First-write-wins settlement of the `fetchBody` promise. -/
def fetchSettle (s : FetchState) (o : Except String JVal) : FetchState :=
  if s.settled.isSome then s else { s with settled := some o }

/-- The error message each rejecting handler passes to `reject`. -/
def busboyErrMsg : BusboyEvent → String
  | .limitEv => "limit"
  | .partsLimitEv => "busboy-partslimit-error"
  | .fieldsLimitEv => "busboy-fieldslimit-error"
  | .filesLimitEv => "busboy-fileslimit-error"
  | .busboyErrorEv => "busboy-error"
  | .streamErrorEv => "stream-error"
  | _ => ""

/-- Whether an event only mutates state (`field`/`file`) rather than
settling the promise. -/
def eventIsMut : BusboyEvent → Bool
  | .field _ _ => true
  | .file _ => true
  | _ => false

/-- One busboy event dispatched to the registered handlers. -/
def fetchStep (options : ParseDataOptionsM) (env : Env) (s : FetchState) : BusboyEvent → FetchState
  | .field fieldname value =>
      { s with ret := lodashSet s.ret ("fields." ++ fieldname) (.str value) }
  | .file info =>
      let o := fileHandler options env s.fs s.ret info
      { s with fs := o.fs, ret := o.ret }
  | .finish => fetchSettle s (.ok s.ret)
  | e => fetchSettle s (.error (busboyErrMsg e))

/-- The `fetchBody` promise machinery run over a busboy event trace. -/
def fetchBodyRun (options : ParseDataOptionsM) (env : Env) (fs : FsState)
    (events : List BusboyEvent) : FetchState :=
  events.foldl (fetchStep options env) ⟨fs, .obj [], none⟩

/-! ## The dispatcher and `parseData` (functions.ts lines 121-330)

`parseData` resolves (it never rejects: the whole body-decoding phase sits
in a `try`/`catch`), so its model returns `Option ParsedData`, where `none`
stands for a parse that never settles (the inner promise was never
resolved nor rejected).  The decoding phase itself is `decodeBody`, the
code inside the `try`: its `Except` error is what the `catch` swallows. -/

/-- The `ParsedData` result record. -/
structure ParsedDataM where
  headers : Option JVal := none
  body : Option JVal := none
  query : Option JVal := none
  path : Option String := none
  method : Option String := none

/-- The merged `limits.fieldSize` (lodash `merge` of the defaults with the
caller's `bodyOptions`): the caller's value wins when present, else the
10 MiB default. -/
def mergedFieldSize (options : ParseDataOptionsM) : Nat :=
  match options.bodyOptions with
  | none => 10 * 1024 * 1024
  | some bo =>
      match bo.limits with
      | none => 10 * 1024 * 1024
      | some l => l.fieldSize.getD (10 * 1024 * 1024)

/-- The content type the dispatcher reads:
`get(out, 'headers.content-type', 'application/x-www-form-urlencoded')`
followed by `.trim()`.  A non-string header value (a repeated
`content-type` header became an array) makes `.trim()` throw, which the
surrounding `catch` swallows; that is the `Except.error` case. -/
def contentTypeOf (hdrs : Option JVal) : Except String String :=
  match hdrs with
  | none => .ok (trimM "application/x-www-form-urlencoded")
  | some h =>
      match getPath h ["content-type"] with
      | none => .ok (trimM "application/x-www-form-urlencoded")
      | some (.str s) => .ok (trimM s)
      | some _ => .error "content-type-is-not-a-string"

/-- The result the urlencoded/multipart branch leaves in `out.body`:
`await fetchBody()` resolves to the body, rejects into the `catch`, or
never settles. -/
def formDecodeResult (options : ParseDataOptionsM) (env : Env) (fs : FsState)
    (events : List BusboyEvent) : Option (Except String (Option JVal)) :=
  match (fetchBodyRun options env fs events).settled with
  | some (.ok ret) => some (.ok (some ret))
  | some (.error e) => some (.error e)
  | none => none

/-- The result the `application/json` branch leaves in `out.body`: buffer
the stream through `stob` with the merged `limits.fieldSize` as ceiling,
then `JSON.parse` the text and wrap it as `{fields: <parsed value>}`. -/
def jsonDecodeResult (options : ParseDataOptionsM) (env : Env) (res : ResM) :
    Option (Except String (Option JVal)) :=
  match (stobFinal (mergedFieldSize options) (stobEventsOf res)).settled with
  | some (.ok buf) =>
      match env.jsonParse buf with
      | .ok v => some (.ok (some (.obj [("fields", v)])))
      | .error e => some (.error e)
  | some (.error e) => some (.error e)
  | none => none

/-- The body-decoding phase (the `try` block, functions.ts lines 189-324):
dispatch on the trimmed content type; any other content type decodes
nothing and leaves `body` absent. -/
def decodeBody (options : ParseDataOptionsM) (env : Env) (hdrs : Option JVal) (res : ResM)
    (events : List BusboyEvent) (fs : FsState) : Option (Except String (Option JVal)) :=
  match contentTypeOf hdrs with
  | .error e => some (.error e)
  | .ok ct =>
      if ct = "application/x-www-form-urlencoded" || startsWithM ct "multipart/form-data;" then
        formDecodeResult options env fs events
      else if ct = "application/json" then
        jsonDecodeResult options env res
      else some (.ok none)

/-- The headers `parseData` extracts: present when `headers: true` or
`body: true` was configured. -/
def extractedHeaders (req : ReqM) (options : ParseDataOptionsM) : Option JVal :=
  if options.headersOpt = some true || options.bodyOpt = some true then
    some (headersExtract req.headers)
  else none

/-- `parseData`: short-circuit to an empty result when the request is
already aborted; extract the requested metadata; when `body: true`, run the
decoding phase and let the `catch` turn any of its failures into an absent
body.  `none` is a parse whose inner promise never settles. -/
def parseDataM (req : ReqM) (res : ResM) (options : ParseDataOptionsM) (env : Env)
    (events : List BusboyEvent) (fs : FsState) : Option ParsedDataM :=
  if res.aborted then some {} else
  let hdrs := extractedHeaders req options
  let q := if options.queryOpt = some true then some (env.parseQs req.query) else none
  let m := if options.methodOpt = some true then some req.method else none
  let p := if options.pathOpt = some true then some req.url else none
  if options.bodyOpt = some true then
    match decodeBody options env hdrs res events fs with
    | some (.ok b) => some { headers := hdrs, body := b, query := q, path := p, method := m }
    | some (.error _) => some { headers := hdrs, body := none, query := q, path := p, method := m }
    | none => none
  else some { headers := hdrs, body := none, query := q, path := p, method := m }

/-! ## Concrete sample inputs used by witnesses and counterexamples -/

/-- A sample environment whose `JSON.parse` accepts anything. -/
def sampleEnv : Env :=
  { tmpdir := "/tmp", jsonParse := fun _ => .ok (.bool true), parseQs := fun _ => .obj [] }

/-- A sample environment whose `JSON.parse` always throws. -/
def sampleEnvErr : Env :=
  { tmpdir := "/tmp", jsonParse := fun _ => .error "json-parse-error", parseQs := fun _ => .obj [] }

/-- An empty filesystem. -/
def emptyFs : FsState := ⟨[]⟩

/-- A sample file part descriptor. -/
def sampleInfo : FileInfoM :=
  { fieldname := "f", filename := "x.txt", encoding := "7bit", mimetype := "text/plain",
    content := [[1, 2]] }

/-- Options that only request the body. -/
def bodyOnlyOptions : ParseDataOptionsM := { bodyOpt := some true }

/-- A request declaring a multipart body. -/
def multipartReq : ReqM :=
  { headers := [("content-type", "multipart/form-data; boundary=x")],
    query := "", method := "post", url := "/u" }

/-- A request declaring a JSON body. -/
def jsonReq : ReqM :=
  { headers := [("content-type", "application/json")],
    query := "", method := "post", url := "/u" }

/-- A live response delivering one final chunk (the byte `1`). -/
def oneChunkRes : ResM := { aborted := false, deliveries := [([49], true)] }

/-- A file part whose field name contains a dot. -/
def dottedInfo : FileInfoM :=
  { fieldname := "a.b", filename := "y.txt", encoding := "7bit", mimetype := "text/plain",
    content := [[3]] }

/-- Options with a one-byte `limits.fieldSize`. -/
def tinyLimitOptions : ParseDataOptionsM :=
  { bodyOpt := some true, bodyOptions := some { limits := some { fieldSize := some 1 } } }

/-- A live response delivering one final two-byte chunk. -/
def twoByteRes : ResM := { aborted := false, deliveries := [([49, 50], true)] }

example : destPath bodyOnlyOptions sampleEnv sampleInfo = "/tmp/x.txt" := rfl
example :
    (fileHandler bodyOnlyOptions sampleEnv emptyFs (.obj []) sampleInfo).ret =
      .obj [("files", .obj [("f", .obj [("file", .str "/tmp/x.txt"),
        ("mimetype", .str "text/plain")])])] := rfl
example :
    parseDataM multipartReq oneChunkRes bodyOnlyOptions sampleEnv
      [.field "name" "foo", .finish] emptyFs =
    some { headers := some (.obj [("content-type", .str "multipart/form-data; boundary=x")]),
           body := some (.obj [("fields", .obj [("name", .str "foo")])]) } := rfl
example :
    parseDataM jsonReq oneChunkRes bodyOnlyOptions sampleEnv [] emptyFs =
    some { headers := some (.obj [("content-type", .str "application/json")]),
           body := some (.obj [("fields", .bool true)]) } := rfl
example :
    parseDataM multipartReq oneChunkRes bodyOnlyOptions sampleEnv [.filesLimitEv] emptyFs =
    some { headers := some (.obj [("content-type", .str "multipart/form-data; boundary=x")]),
           body := none } := rfl

/-! ## Lemmas about the buffered materializer -/

/-- A `data` event on an ended stream state changes nothing. -/
theorem stobStep_data_dead (maxSize : Nat) (s : StobState) (b : List Nat)
    (h : s.hasEnded = true) : stobStep maxSize s (.data b) = s := by
  cases hb : s.buffers <;> simp [stobStep, hb, h]

/-- `data` events on an ended stream state change nothing. -/
theorem stobRunFrom_data_dead (maxSize : Nat) (s : StobState) (h : s.hasEnded = true)
    (chunks : List (List Nat)) : stobRunFrom maxSize s (chunks.map .data) = s := by
  induction chunks with
  | nil => rfl
  | cons c rest ih =>
      simp only [List.map_cons, stobRunFrom, List.foldl_cons]
      rw [stobStep_data_dead maxSize s c h]
      exact ih

/-- Settlement only ever happens on states marked ended: one step preserves
the invariant. -/
theorem stobStep_endedInv (maxSize : Nat) (s : StobState) (e : StobEvent)
    (h : s.hasEnded = false → s.settled = none) :
    (stobStep maxSize s e).hasEnded = false → (stobStep maxSize s e).settled = none := by
  rcases s with ⟨he, b, l, st, d⟩
  rcases e with b' | _ | _ <;> cases he <;> cases b <;>
    simp_all [stobStep, stobSettle] <;> split_ifs <;> simp_all

/-- Settlement only ever happens on states marked ended, along any trace. -/
theorem stobRunFrom_endedInv (maxSize : Nat) (t : List StobEvent) :
    ∀ s : StobState, (s.hasEnded = false → s.settled = none) →
      ((stobRunFrom maxSize s t).hasEnded = false → (stobRunFrom maxSize s t).settled = none) := by
  induction t with
  | nil => intro s h; exact h
  | cons e rest ih =>
      intro s h
      simp only [stobRunFrom, List.foldl_cons]
      exact ih _ (stobStep_endedInv maxSize s e h)

/-- A settled, ended state is frozen: no event changes it. -/
theorem stobStep_frozen (maxSize : Nat) (s : StobState) (e : StobEvent)
    (hsome : s.settled.isSome = true) (he : s.hasEnded = true) :
    stobStep maxSize s e = s := by
  rcases s with ⟨he', b, l, st, d⟩
  rcases e with b' | _ | _ <;> cases b <;> simp_all [stobStep, stobSettle]

/-- A settled, ended state is frozen along any further trace. -/
theorem stobRunFrom_frozen (maxSize : Nat) (s : StobState) (u : List StobEvent)
    (hsome : s.settled.isSome = true) (he : s.hasEnded = true) :
    stobRunFrom maxSize s u = s := by
  induction u with
  | nil => rfl
  | cons e rest ih =>
      simp only [stobRunFrom, List.foldl_cons]
      rw [stobStep_frozen maxSize s e hsome he]
      exact ih

/-- C9: the buffered materializer settles exactly once.  Once a trace `t`
has settled the `stob` promise (resolved or rejected), any further trace
`u` of data, end and error events leaves the whole listener state — in
particular the settled outcome and the accumulated buffers — unchanged, so
the parse has exactly one terminal outcome. -/
theorem stob_settles_once (maxSize : Nat) (t u : List StobEvent)
    (o : Except String (List Nat))
    (h : (stobFinal maxSize t).settled = some o) :
    stobRunFrom maxSize (stobFinal maxSize t) u = stobFinal maxSize t := by
  have hsome : (stobFinal maxSize t).settled.isSome = true := by rw [h]; rfl
  have hEnded : (stobFinal maxSize t).hasEnded = true := by
    by_contra hc
    have hno : (stobFinal maxSize t).settled = none :=
      stobRunFrom_endedInv maxSize t stobInit (fun _ => rfl) (by simpa using hc)
    rw [hno] at h
    exact Option.noConfusion h
  exact stobRunFrom_frozen maxSize _ u hsome hEnded

/-- C9 witness: a concrete resolved trace is unchanged by two further
events. -/
theorem stob_settles_once_witness :
    (stobFinal 5 [StobEvent.data [1], StobEvent.end_]).settled = some (Except.ok [1]) ∧
    stobRunFrom 5 (stobFinal 5 [StobEvent.data [1], StobEvent.end_])
        [StobEvent.data [2], StobEvent.end_]
      = stobFinal 5 [StobEvent.data [1], StobEvent.end_] :=
  ⟨rfl, stob_settles_once 5 [StobEvent.data [1], StobEvent.end_]
    [StobEvent.data [2], StobEvent.end_] (Except.ok [1]) rfl⟩

/-- Data phase without overflow: every chunk is appended and the running
length tracks the total. -/
theorem stob_data_ok (maxSize : Nat) (hm : maxSize ≠ 0) (chunks : List (List Nat)) :
    ∀ (acc : List (List Nat)) (len : Nat), len + totalLen chunks ≤ maxSize →
      stobRunFrom maxSize ⟨false, some acc, len, none, false⟩ (chunks.map .data) =
        ⟨false, some (acc ++ chunks), len + totalLen chunks, none, false⟩ := by
  induction chunks with
  | nil => intro acc len _; simp [stobRunFrom, totalLen]
  | cons c rest ih =>
      intro acc len h
      have htot : len + (c.length + totalLen rest) ≤ maxSize := by
        simpa [totalLen] using h
      have hover : ¬ (maxSize < len + c.length) := by omega
      simp only [List.map_cons, stobRunFrom, List.foldl_cons]
      have hstep : stobStep maxSize ⟨false, some acc, len, none, false⟩ (.data c) =
          ⟨false, some (acc ++ [c]), len + c.length, none, false⟩ := by
        simp [stobStep, hm, hover]
      rw [hstep]
      have hrest := ih (acc ++ [c]) (len + c.length) (by omega)
      simp only [stobRunFrom] at hrest
      rw [hrest]
      simp [totalLen, Nat.add_assoc]

/-- Data phase with overflow: the first chunk that pushes the running
length past the ceiling nulls the buffers, destroys the stream and rejects
with the max-size error; everything after is frozen. -/
theorem stob_data_overflow (maxSize : Nat) (hm : maxSize ≠ 0) (chunks : List (List Nat)) :
    ∀ (acc : List (List Nat)) (len : Nat), len ≤ maxSize →
      maxSize < len + totalLen chunks →
      ∃ n, stobRunFrom maxSize ⟨false, some acc, len, none, false⟩ (chunks.map .data) =
        ⟨true, none, n, some (.error "MAX_SIZE_EXCEEDED"), true⟩ := by
  induction chunks with
  | nil =>
      intro acc len h1 h2
      simp [totalLen] at h2
      omega
  | cons c rest ih =>
      intro acc len h1 h2
      by_cases hover : maxSize < len + c.length
      · refine ⟨len + c.length, ?_⟩
        simp only [List.map_cons, stobRunFrom, List.foldl_cons]
        have hstep : stobStep maxSize ⟨false, some acc, len, none, false⟩ (.data c) =
            ⟨true, none, len + c.length, some (.error "MAX_SIZE_EXCEEDED"), true⟩ := by
          simp [stobStep, hm, hover, stobSettle]
        rw [hstep]
        exact stobRunFrom_data_dead maxSize _ rfl rest
      · have hstep : stobStep maxSize ⟨false, some acc, len, none, false⟩ (.data c) =
            ⟨false, some (acc ++ [c]), len + c.length, none, false⟩ := by
          simp [stobStep, hm, hover]
        simp only [List.map_cons, stobRunFrom, List.foldl_cons]
        rw [hstep]
        have h2' : maxSize < (len + c.length) + totalLen rest := by
          simp [totalLen] at h2
          omega
        exact ih (acc ++ [c]) (len + c.length) (by omega) h2'

/-- Final state of a normally ending stream that stays within the ceiling:
resolved with the concatenated buffer, not destroyed. -/
theorem stobFinal_trace_ok (maxSize : Nat) (hm : maxSize ≠ 0) (chunks : List (List Nat))
    (hle : totalLen chunks ≤ maxSize) :
    stobFinal maxSize (chunksTrace chunks) =
      ⟨true, some chunks, totalLen chunks, some (.ok (bufferOfChunks chunks)), false⟩ := by
  have hdata := stob_data_ok maxSize hm chunks [] 0 (by omega)
  simp only [stobFinal, stobRunFrom, chunksTrace, List.foldl_append]
  simp only [stobRunFrom] at hdata
  have hinit : (stobInit : StobState) = ⟨false, some [], 0, none, false⟩ := rfl
  rw [hinit, hdata]
  simp [stobStep, stobSettle]

/-- Final state of a stream that exceeds the ceiling and then ends:
still rejected and destroyed. -/
theorem stobFinal_trace_err (maxSize : Nat) (hm : maxSize ≠ 0) (chunks : List (List Nat))
    (hgt : maxSize < totalLen chunks) :
    ∃ n, stobFinal maxSize (chunksTrace chunks) =
      ⟨true, none, n, some (.error "MAX_SIZE_EXCEEDED"), true⟩ := by
  obtain ⟨n, hn⟩ := stob_data_overflow maxSize hm chunks [] 0 (by omega) (by omega)
  refine ⟨n, ?_⟩
  simp only [stobFinal, stobRunFrom, chunksTrace, List.foldl_append]
  simp only [stobRunFrom] at hn
  have hinit : (stobInit : StobState) = ⟨false, some [], 0, none, false⟩ := rfl
  rw [hinit, hn]
  rfl

/-- C6: for `maxSize > 0` the buffered materializer rejects with the
max-size error and destroys the stream exactly when the accumulated byte
length strictly exceeds `maxSize`; a total of exactly `maxSize` succeeds,
zero chunks resolve to the empty buffer, and a single in-bound chunk is
resolved as that chunk itself. -/
theorem stob_maxsize_boundary (chunks : List (List Nat)) (maxSize : Nat) (h : 0 < maxSize) :
    ((stobOutcome chunks maxSize = some (.error "MAX_SIZE_EXCEEDED")) ↔
        maxSize < totalLen chunks)
  ∧ (((stobFinal maxSize (chunksTrace chunks)).destroyed = true) ↔ maxSize < totalLen chunks)
  ∧ (totalLen chunks ≤ maxSize → stobOutcome chunks maxSize = some (.ok (bufferOfChunks chunks)))
  ∧ stobOutcome [] maxSize = some (.ok [])
  ∧ (∀ c : List Nat, c.length ≤ maxSize → stobOutcome [c] maxSize = some (.ok c)) := by
  have hm : maxSize ≠ 0 := by omega
  have hempty : stobOutcome [] maxSize = some (.ok []) := by
    have h0 := stobFinal_trace_ok maxSize hm [] (by simp [totalLen])
    simp [stobOutcome, h0, bufferOfChunks]
  have hone : ∀ c : List Nat, c.length ≤ maxSize → stobOutcome [c] maxSize = some (.ok c) := by
    intro c hc
    have h1 := stobFinal_trace_ok maxSize hm [c] (by simp [totalLen]; omega)
    simp [stobOutcome, h1, bufferOfChunks]
  by_cases hgt : maxSize < totalLen chunks
  · obtain ⟨n, hn⟩ := stobFinal_trace_err maxSize hm chunks hgt
    refine ⟨?_, ?_, ?_, hempty, hone⟩
    · simp [stobOutcome, hn, hgt]
    · simp [hn, hgt]
    · intro hle; omega
  · have hle : totalLen chunks ≤ maxSize := by omega
    have hok := stobFinal_trace_ok maxSize hm chunks hle
    refine ⟨?_, ?_, ?_, hempty, hone⟩
    · simp [stobOutcome, hok, hgt]
    · simp [hok, hgt]
    · intro _; simp [stobOutcome, hok]

/-- C6 witness: with ceiling 2, a two-byte stream resolves and a three-byte
stream rejects. -/
theorem stob_maxsize_boundary_witness :
    (0 < 2 ∧ stobOutcome [[1], [2]] 2 = some (Except.ok (bufferOfChunks [[1], [2]]))) ∧
    stobOutcome [[1], [2], [3]] 2 = some (Except.error "MAX_SIZE_EXCEEDED") :=
  ⟨⟨by decide, (stob_maxsize_boundary [[1], [2]] 2 (by decide)).2.2.1 (by decide)⟩,
   (stob_maxsize_boundary [[1], [2], [3]] 2 (by decide)).1.mpr (by decide)⟩

/-- C1: evaluating the header extraction of `parseData` at a name that
arrives twice shows the second value being dropped: the result maps `x` to
the one-element list `["a"]`, not to the two-element list `["a", "b"]` the
claim requires, and a third occurrence is appended to the crippled list,
yielding `["a", "c"]`.  The `else` branch of the header loop wraps the
existing scalar as `[val]` and never pushes the incoming `value`. -/
theorem headers_duplicate_drops_second :
    headersExtract [("x", "a"), ("x", "b")] = .obj [("x", .arr [.str "a"])]
  ∧ headersExtract [("x", "a"), ("x", "b")] ≠ .obj [("x", .arr [.str "a", .str "b"])]
  ∧ headersExtract [("x", "a"), ("x", "b"), ("x", "c")] =
      .obj [("x", .arr [.str "a", .str "c"])] := by
  refine ⟨rfl, ?_, rfl⟩
  intro hcontra
  rw [show headersExtract [("x", "a"), ("x", "b")] = JVal.obj [("x", JVal.arr [JVal.str "a"])]
    from rfl] at hcontra
  simp at hcontra

/-- C8 counterexample: the byte-stream bridge never consults the abort
flag.  On a response already marked aborted that still has one pending
delivery, a pull delivers that chunk first — it is not the immediately
exhausted stream (just an end-of-stream signal) the claim describes. -/
theorem bridge_ignores_abort_cex :
    resDataToStreamRead { aborted := true, deliveries := [([7], true)] } =
      [.chunk [7], .eos]
  ∧ resDataToStreamRead { aborted := true, deliveries := [([7], true)] } ≠
      [StreamItem.eos] := by
  refine ⟨rfl, ?_⟩
  intro hcontra
  rw [show resDataToStreamRead { aborted := true, deliveries := [([7], true)] } =
    [StreamItem.chunk [7], StreamItem.eos] from rfl] at hcontra
  simp at hcontra

/-- C8 amended: the abort short-circuit lives in `parseData`, not in the
bridge: a request already marked aborted makes `parseData` resolve
immediately with the empty result, before any stream is created or pulled. -/
theorem aborted_request_short_circuits (req : ReqM) (res : ResM)
    (options : ParseDataOptionsM) (env : Env) (events : List BusboyEvent) (fs : FsState)
    (h : res.aborted = true) :
    parseDataM req res options env events fs = some {} := by
  simp [parseDataM, h]

/-- C8 amended witness: a concrete aborted request parses to the empty
result. -/
theorem aborted_request_short_circuits_witness :
    ({ aborted := true, deliveries := [([7], true)] } : ResM).aborted = true ∧
    parseDataM multipartReq { aborted := true, deliveries := [([7], true)] }
        bodyOnlyOptions sampleEnv [] emptyFs = some {} :=
  ⟨rfl, aborted_request_short_circuits multipartReq _ bodyOnlyOptions sampleEnv [] emptyFs rfl⟩

/-- C4: a file part whose computed destination already exists as a file or
directory is skipped silently: the filesystem is unchanged (the existing
node keeps its contents), no entry is added to the accumulated result, the
handler surfaces no error (it is total and never settles the promise), and
the part's byte source is still drained. -/
theorem preexisting_destination_skipped (options : ParseDataOptionsM) (env : Env)
    (fs : FsState) (ret : JVal) (info : FileInfoM) (node : FsNode)
    (hlook : fs.lookup (destPath options env info) = some node)
    (hnode : node.isFileOrDir = true) :
    fileHandler options env fs ret info = ⟨fs, ret, true⟩ := by
  by_cases hh : resolvedHandle options info
  · simp [fileHandler, hh, fsHasFileOrDir, hlook, hnode]
  · simp [fileHandler, hh]

/-- C4 witness: a concrete part whose destination `/tmp/x.txt` already
holds a file is skipped, leaving filesystem and result untouched. -/
theorem preexisting_destination_skipped_witness :
    (FsState.mk [("/tmp/x.txt", .file [9])]).lookup
        (destPath bodyOnlyOptions sampleEnv sampleInfo) = some (.file [9]) ∧
    FsNode.isFileOrDir (.file [9]) = true ∧
    fileHandler bodyOnlyOptions sampleEnv (FsState.mk [("/tmp/x.txt", .file [9])])
        (.obj []) sampleInfo = ⟨FsState.mk [("/tmp/x.txt", .file [9])], .obj [], true⟩ :=
  ⟨rfl, rfl,
   preexisting_destination_skipped bodyOnlyOptions sampleEnv _ (.obj []) sampleInfo
     (.file [9]) rfl rfl⟩

/-- Looking up a path just written finds the file with its content. -/
theorem fsLookupGo_set (entries : List (String × FsNode)) (p : String) (n : FsNode) :
    fsLookupGo (fsEntriesSet entries p n) p = some n := by
  induction entries with
  | nil => simp [fsEntriesSet, fsLookupGo]
  | cons e rest ih =>
      rcases e with ⟨q, m⟩
      by_cases hq : q = p
      · simp [fsEntriesSet, hq, fsLookupGo]
      · simp [fsEntriesSet, hq, fsLookupGo, ih]

/-- `writeFile` leaves the written content at the written path. -/
theorem fs_lookup_writeFile (fs : FsState) (p : String) (c : List Nat) :
    (fs.writeFile p c).lookup p = some (.file c) := by
  rcases fs with ⟨entries⟩
  exact fsLookupGo_set entries p (.file c)

/-- C3 counterexample: a successfully written file part records its entry
under a key named `file`, not `path`: `files.f.path` is absent while
`files.f.file` holds the destination. -/
theorem files_entry_key_is_file_not_path_cex :
    (fileHandler bodyOnlyOptions sampleEnv emptyFs (.obj []) sampleInfo).ret =
      .obj [("files", .obj [("f", .obj [("file", .str "/tmp/x.txt"),
        ("mimetype", .str "text/plain")])])]
  ∧ getPath (fileHandler bodyOnlyOptions sampleEnv emptyFs (.obj []) sampleInfo).ret
      ["files", "f", "path"] = none
  ∧ getPath (fileHandler bodyOnlyOptions sampleEnv emptyFs (.obj []) sampleInfo).ret
      ["files", "f", "file"] = some (.str "/tmp/x.txt") := ⟨rfl, rfl, rfl⟩

/-- C3 amended: for every file part that is written, the decoder records
`files.<fieldName> = {file: destination, mimetype}` — the destination path
sits under the key `file` (not `path`) — and the destination then holds the
part's concatenated bytes. -/
theorem file_write_records_file_key (options : ParseDataOptionsM) (env : Env)
    (fs : FsState) (ret : JVal) (info : FileInfoM)
    (hh : resolvedHandle options info = true)
    (hex : fsHasFileOrDir fs (destPath options env info) = false) :
    fileHandler options env fs ret info =
      ⟨fs.writeFile (destPath options env info) info.content.flatten,
       lodashSet ret ("files." ++ info.fieldname)
         (.obj [("file", .str (destPath options env info)),
                ("mimetype", .str info.mimetype)]),
       true⟩
  ∧ (fileHandler options env fs ret info).fs.lookup (destPath options env info) =
      some (.file info.content.flatten) := by
  have heq : fileHandler options env fs ret info =
      ⟨fs.writeFile (destPath options env info) info.content.flatten,
       lodashSet ret ("files." ++ info.fieldname)
         (.obj [("file", .str (destPath options env info)),
                ("mimetype", .str info.mimetype)]),
       true⟩ := by
    simp [fileHandler, hh, hex]
  refine ⟨heq, ?_⟩
  rw [heq]
  exact fs_lookup_writeFile fs _ _

/-- C3 amended witness: the sample part is written to `/tmp/x.txt` and
recorded with the `file` and `mimetype` keys. -/
theorem file_write_records_file_key_witness :
    resolvedHandle bodyOnlyOptions sampleInfo = true ∧
    fsHasFileOrDir emptyFs (destPath bodyOnlyOptions sampleEnv sampleInfo) = false ∧
    (fileHandler bodyOnlyOptions sampleEnv emptyFs (.obj []) sampleInfo).fs.lookup
        (destPath bodyOnlyOptions sampleEnv sampleInfo) = some (.file [1, 2]) :=
  ⟨rfl, rfl, by
    have h := (file_write_records_file_key bodyOnlyOptions sampleEnv emptyFs (.obj [])
      sampleInfo rfl rfl).2
    simpa using h⟩

/-- C5 counterexample: the claim keys the decision table on the literal
content type, but the source trims it first.  The value
`" application/json"` (leading space) is none of the three listed
types, so the claim demands no body decoding — yet the code buffers and
JSON-decodes it, producing a `{fields: ...}` body. -/
theorem dispatch_trims_content_type_cex :
    (" application/json" ≠ "application/json")
  ∧ decodeBody bodyOnlyOptions sampleEnv
      (some (.obj [("content-type", .str " application/json")])) oneChunkRes [] emptyFs
      = some (.ok (some (.obj [("fields", .bool true)]))) := by
  refine ⟨by decide, rfl⟩

/-- C5 amended: the *trimmed* content type (defaulting to
`application/x-www-form-urlencoded` when the header is absent) selects the
strategy: exactly the urlencoded type or a `multipart/form-data;` prefix
goes to the tokenized form decoder, exactly `application/json` goes to the
buffered JSON decode wrapped as `{fields: ...}`, and anything else decodes
nothing, leaving `body` absent. -/
theorem content_type_dispatch (options : ParseDataOptionsM) (env : Env) (hdrs : Option JVal)
    (res : ResM) (events : List BusboyEvent) (fs : FsState) :
    (∀ ct, contentTypeOf hdrs = .ok ct →
      (ct = "application/x-www-form-urlencoded" ∨ startsWithM ct "multipart/form-data;" = true) →
      decodeBody options env hdrs res events fs = formDecodeResult options env fs events)
  ∧ (∀ ct, contentTypeOf hdrs = .ok ct → ct = "application/json" →
      decodeBody options env hdrs res events fs = jsonDecodeResult options env res)
  ∧ (∀ ct, contentTypeOf hdrs = .ok ct →
      ct ≠ "application/x-www-form-urlencoded" →
      startsWithM ct "multipart/form-data;" = false →
      ct ≠ "application/json" →
      decodeBody options env hdrs res events fs = some (.ok none))
  ∧ (hdrs = none → contentTypeOf hdrs = .ok "application/x-www-form-urlencoded")
  ∧ (∀ h, hdrs = some h → getPath h ["content-type"] = none →
      contentTypeOf hdrs = .ok "application/x-www-form-urlencoded") := by
  refine ⟨?_, ?_, ?_, ?_, ?_⟩
  · intro ct hct hsel
    rcases hsel with hu | hmp
    · subst hu; simp [decodeBody, hct]
    · simp [decodeBody, hct, hmp]
  · intro ct hct hj
    subst hj
    have h1 : ("application/json" = "application/x-www-form-urlencoded") = False := by simp
    have h2 : startsWithM "application/json" "multipart/form-data;" = false := by decide
    simp [decodeBody, hct, h1, h2]
  · intro ct hct hu hmp hj
    simp [decodeBody, hct, hu, hmp, hj]
  · intro h; subst h; rfl
  · intro h hh hct
    subst hh
    simp [contentTypeOf, hct]
    rfl

/-- C5 amended witness: a JSON request dispatches to the buffered JSON
decode, and a `text/plain` request decodes nothing. -/
theorem content_type_dispatch_witness :
    contentTypeOf (some (.obj [("content-type", .str "application/json")])) =
      .ok "application/json" ∧
    decodeBody bodyOnlyOptions sampleEnv
        (some (.obj [("content-type", .str "application/json")])) oneChunkRes [] emptyFs =
      jsonDecodeResult bodyOnlyOptions sampleEnv oneChunkRes ∧
    decodeBody bodyOnlyOptions sampleEnv
        (some (.obj [("content-type", .str "text/plain")])) oneChunkRes [] emptyFs =
      some (.ok none) :=
  ⟨rfl,
   (content_type_dispatch bodyOnlyOptions sampleEnv
      (some (.obj [("content-type", .str "application/json")])) oneChunkRes [] emptyFs).2.1
     "application/json" rfl rfl,
   (content_type_dispatch bodyOnlyOptions sampleEnv
      (some (.obj [("content-type", .str "text/plain")])) oneChunkRes [] emptyFs).2.2.1
     "text/plain" rfl (by decide) (by decide) (by decide)⟩

/-- The top-level `catch` of `parseData`: a decode-phase error resolves the
call with the extracted metadata and an absent body. -/
theorem parseData_catches_decode_error (req : ReqM) (res : ResM)
    (options : ParseDataOptionsM) (env : Env) (events : List BusboyEvent) (fs : FsState)
    (e : String) (ha : res.aborted = false)
    (hd : decodeBody options env (extractedHeaders req options) res events fs =
      some (.error e)) :
    parseDataM req res options env events fs =
      some { headers := extractedHeaders req options,
             body := none,
             query := if options.queryOpt = some true then some (env.parseQs req.query) else none,
             path := if options.pathOpt = some true then some req.url else none,
             method := if options.methodOpt = some true then some req.method else none } := by
  by_cases hb : options.bodyOpt = some true
  · simp [parseDataM, ha, hb, hd]
  · simp [parseDataM, ha, hb]

/-- C7: every failure of the body-decoding phase — a JSON parse error, a
mechanism rejection, any exception the `try` catches — leaves `parseData`
resolving (never throwing or rejecting) with exactly the metadata it
already extracted and `body` absent. -/
theorem decode_failure_degrades_to_metadata (req : ReqM) (res : ResM)
    (options : ParseDataOptionsM) (env : Env) (events : List BusboyEvent) (fs : FsState)
    (e : String) (ha : res.aborted = false)
    (hd : decodeBody options env (extractedHeaders req options) res events fs =
      some (.error e)) :
    ∃ d, parseDataM req res options env events fs = some d ∧
      d.body = none ∧
      d.headers = extractedHeaders req options ∧
      d.query = (if options.queryOpt = some true then some (env.parseQs req.query) else none) ∧
      d.path = (if options.pathOpt = some true then some req.url else none) ∧
      d.method = (if options.methodOpt = some true then some req.method else none) := by
  exact ⟨_, parseData_catches_decode_error req res options env events fs e ha hd,
    rfl, rfl, rfl, rfl, rfl⟩

/-- C7 witness: a JSON body whose `JSON.parse` throws degrades to the
extracted headers with no body. -/
theorem decode_failure_degrades_to_metadata_witness :
    (oneChunkRes.aborted = false) ∧
    decodeBody bodyOnlyOptions sampleEnvErr (extractedHeaders jsonReq bodyOnlyOptions)
        oneChunkRes [] emptyFs = some (.error "json-parse-error") ∧
    ∃ d, parseDataM jsonReq oneChunkRes bodyOnlyOptions sampleEnvErr [] emptyFs = some d ∧
      d.body = none ∧
      d.headers = extractedHeaders jsonReq bodyOnlyOptions ∧
      d.query = none ∧ d.path = none ∧ d.method = none :=
  ⟨rfl, rfl,
   decode_failure_degrades_to_metadata jsonReq oneChunkRes bodyOnlyOptions sampleEnvErr
     [] emptyFs "json-parse-error" rfl rfl⟩

/-- `field` and `file` events only mutate the accumulator, never the
settlement. -/
theorem fetchStep_mut_settled (options : ParseDataOptionsM) (env : Env) (s : FetchState)
    (e : BusboyEvent) (h : eventIsMut e = true) :
    (fetchStep options env s e).settled = s.settled := by
  cases e <;> simp_all [fetchStep, eventIsMut]

/-- A prefix of field/file events leaves the settlement untouched. -/
theorem fetchFold_mut_settled (options : ParseDataOptionsM) (env : Env)
    (pre : List BusboyEvent) :
    ∀ s : FetchState, (∀ e ∈ pre, eventIsMut e = true) →
      (pre.foldl (fetchStep options env) s).settled = s.settled := by
  induction pre with
  | nil => intro s _; rfl
  | cons e rest ih =>
      intro s hall
      simp only [List.foldl_cons]
      rw [ih _ (fun e' he' => hall e' (List.mem_cons_of_mem _ he'))]
      exact fetchStep_mut_settled options env s e (hall e (List.mem_cons_self _ _))

/-- An unsettled promise is rejected by each of the six mechanism-failure
events with its distinct error message. -/
theorem fetchStep_error_settles (options : ParseDataOptionsM) (env : Env) (s : FetchState)
    (k : BusboyEvent)
    (hk : k = .limitEv ∨ k = .partsLimitEv ∨ k = .fieldsLimitEv ∨ k = .filesLimitEv ∨
      k = .busboyErrorEv ∨ k = .streamErrorEv)
    (hs : s.settled = none) :
    (fetchStep options env s k).settled = some (.error (busboyErrMsg k)) := by
  rcases hk with h | h | h | h | h | h <;> subst h <;>
    simp [fetchStep, fetchSettle, hs, busboyErrMsg]

/-- The `stob` run on the bridged stream rejects when the delivered bytes
exceed the ceiling, whether or not the stream ever ends. -/
theorem stob_events_overflow (maxSize : Nat) (hm : maxSize ≠ 0) (res : ResM)
    (h : maxSize < totalLen (streamChunks res.deliveries)) :
    ∃ n, stobFinal maxSize (stobEventsOf res) =
      ⟨true, none, n, some (.error "MAX_SIZE_EXCEEDED"), true⟩ := by
  cases hend : streamEnded res.deliveries
  · obtain ⟨n, hn⟩ := stob_data_overflow maxSize hm (streamChunks res.deliveries) [] 0
      (by omega) (by omega)
    refine ⟨n, ?_⟩
    simp only [stobEventsOf, hend, if_neg Bool.false_ne_true, List.append_nil]
    simp only [stobFinal, stobRunFrom] at hn ⊢
    have hinit : (stobInit : StobState) = ⟨false, some [], 0, none, false⟩ := rfl
    rw [hinit]
    exact hn
  · obtain ⟨n, hn⟩ := stobFinal_trace_err maxSize hm (streamChunks res.deliveries) h
    refine ⟨n, ?_⟩
    have htr : stobEventsOf res = chunksTrace (streamChunks res.deliveries) := by
      simp [stobEventsOf, chunksTrace, hend]
    rw [htr]
    exact hn

/-- C2 counterexample: a files-limit rejection of the inner decode does not
surface: `parseData` resolves with the already-extracted headers and `body`
absent — the degraded result the claim rules out — instead of rejecting. -/
theorem mechanism_error_not_surfaced_cex :
    decodeBody bodyOnlyOptions sampleEnv (extractedHeaders multipartReq bodyOnlyOptions)
        oneChunkRes [.filesLimitEv] emptyFs = some (.error "busboy-fileslimit-error")
  ∧ parseDataM multipartReq oneChunkRes bodyOnlyOptions sampleEnv [.filesLimitEv] emptyFs =
      some { headers := some (.obj [("content-type",
               .str "multipart/form-data; boundary=x")]),
             body := none } := ⟨rfl, rfl⟩

/-- C2 amended: the five mechanism failures (tokenizer count limits,
tokenizer error, upstream stream error, and the buffered path's max-size
overflow) each reject the *inner* decode promise with their distinct
error, but `parseData` catches every such rejection and resolves with the
extracted metadata and no body, so the error never reaches the caller. -/
theorem mechanism_errors_reject_inner_decode :
    (∀ (options : ParseDataOptionsM) (env : Env) (fs : FsState)
       (pre : List BusboyEvent) (k : BusboyEvent),
       (∀ e ∈ pre, eventIsMut e = true) →
       (k = .limitEv ∨ k = .partsLimitEv ∨ k = .fieldsLimitEv ∨ k = .filesLimitEv ∨
         k = .busboyErrorEv ∨ k = .streamErrorEv) →
       (fetchBodyRun options env fs (pre ++ [k])).settled = some (.error (busboyErrMsg k)))
  ∧ (∀ (options : ParseDataOptionsM) (env : Env) (res : ResM),
       0 < mergedFieldSize options →
       mergedFieldSize options < totalLen (streamChunks res.deliveries) →
       jsonDecodeResult options env res = some (.error "MAX_SIZE_EXCEEDED"))
  ∧ (∀ (req : ReqM) (res : ResM) (options : ParseDataOptionsM) (env : Env)
       (events : List BusboyEvent) (fs : FsState) (e : String),
       res.aborted = false →
       decodeBody options env (extractedHeaders req options) res events fs =
         some (.error e) →
       ∃ d, parseDataM req res options env events fs = some d ∧ d.body = none ∧
         d.headers = extractedHeaders req options) := by
  refine ⟨?_, ?_, ?_⟩
  · intro options env fs pre k hpre hk
    have hbase : (fetchBodyRun options env fs pre).settled = none :=
      fetchFold_mut_settled options env pre ⟨fs, .obj [], none⟩ hpre
    simp only [fetchBodyRun, List.foldl_append, List.foldl_cons, List.foldl_nil]
    simp only [fetchBodyRun] at hbase
    exact fetchStep_error_settles options env _ k hk hbase
  · intro options env res hpos hover
    obtain ⟨n, hn⟩ := stob_events_overflow (mergedFieldSize options) (by omega) res hover
    simp [jsonDecodeResult, hn]
  · intro req res options env events fs e ha hd
    exact ⟨_, parseData_catches_decode_error req res options env events fs e ha hd, rfl, rfl⟩

/-- C2 amended witness: a stream error after one field rejects the inner
promise, a two-byte JSON body over a one-byte ceiling rejects with the
max-size error, and a files-limit rejection is caught by `parseData`. -/
theorem mechanism_errors_reject_inner_decode_witness :
    (fetchBodyRun bodyOnlyOptions sampleEnv emptyFs
        [.field "a" "b", .streamErrorEv]).settled = some (.error "stream-error")
  ∧ jsonDecodeResult tinyLimitOptions sampleEnv twoByteRes =
      some (.error "MAX_SIZE_EXCEEDED")
  ∧ (∃ d, parseDataM multipartReq oneChunkRes bodyOnlyOptions sampleEnv
        [.filesLimitEv] emptyFs = some d ∧ d.body = none ∧
        d.headers = extractedHeaders multipartReq bodyOnlyOptions) :=
  ⟨mechanism_errors_reject_inner_decode.1 bodyOnlyOptions sampleEnv emptyFs
      [.field "a" "b"] .streamErrorEv (by decide)
      (Or.inr (Or.inr (Or.inr (Or.inr (Or.inr rfl))))),
   mechanism_errors_reject_inner_decode.2.1 tinyLimitOptions sampleEnv twoByteRes
      (by decide) (by decide),
   mechanism_errors_reject_inner_decode.2.2 multipartReq oneChunkRes bodyOnlyOptions
      sampleEnv [.filesLimitEv] emptyFs "busboy-fileslimit-error" rfl rfl⟩

/-- Setting a three-segment path on an empty object nests three levels of
objects (when neither later segment looks like an array index). -/
theorem setPath_three_fresh (k0 a b : String) (v : JVal)
    (ha : isIndexKey a = false) (hb : isIndexKey b = false) :
    setPath (.obj []) [k0, a, b] v = .obj [(k0, .obj [(a, .obj [(b, v)])])] := by
  simp [setPath, childGet, objGet, freshChild, ha, hb, assignKey, objSet]

/-- Setting a two-segment path on an empty object nests two levels. -/
theorem setPath_two_fresh (a b : String) (v : JVal) (hb : isIndexKey b = false) :
    setPath (.obj []) [a, b] v = .obj [(a, .obj [(b, v)])] := by
  simp [setPath, childGet, objGet, freshChild, hb, assignKey, objSet]

/-- A one-key object has no other literal key. -/
theorem getPath_single_miss (a w : String) (x : JVal) (h : a ≠ w) :
    getPath (.obj [(a, x)]) [w] = none := by
  simp [getPath, childGet, objGet, h]

/-- C10: client-supplied names are deep paths, not literal keys.  A
multipart field name whose `fields.<name>` path parses into three segments
is stored as the nested mapping `fields.a.b`, with no literal top-level key
`<name>` under `fields`; the same holds for `files.<name>` entries and for
lowercased header names that parse into two segments. -/
theorem client_names_are_deep_paths :
    (∀ (options : ParseDataOptionsM) (env : Env) (s : FetchState) (f v a b : String),
       castPath ("fields." ++ f) = ["fields", a, b] →
       isIndexKey a = false → isIndexKey b = false → a ≠ f →
       s.ret = .obj [] →
       (fetchStep options env s (.field f v)).ret =
         .obj [("fields", .obj [(a, .obj [(b, .str v)])])] ∧
       getPath (fetchStep options env s (.field f v)).ret ["fields", f] = none)
  ∧ (∀ (options : ParseDataOptionsM) (env : Env) (fs : FsState) (info : FileInfoM)
       (a b : String),
       castPath ("files." ++ info.fieldname) = ["files", a, b] →
       isIndexKey a = false → isIndexKey b = false → a ≠ info.fieldname →
       resolvedHandle options info = true →
       fsHasFileOrDir fs (destPath options env info) = false →
       (fileHandler options env fs (.obj []) info).ret =
         .obj [("files", .obj [(a, .obj [(b,
           .obj [("file", .str (destPath options env info)),
                 ("mimetype", .str info.mimetype)])])])] ∧
       getPath (fileHandler options env fs (.obj []) info).ret
         ["files", info.fieldname] = none)
  ∧ (∀ (k v a b : String),
       castPath (toLowerM k) = [a, b] →
       isIndexKey a = false → isIndexKey b = false → a ≠ toLowerM k →
       headerStep (.obj []) k v = .obj [(a, .obj [(b, .str v)])] ∧
       getPath (headerStep (.obj []) k v) [toLowerM k] = none) := by
  refine ⟨?_, ?_, ?_⟩
  · intro options env s f v a b hcast ha hb hne hret
    have hstep : (fetchStep options env s (.field f v)).ret =
        lodashSet s.ret ("fields." ++ f) (.str v) := rfl
    have hset : lodashSet s.ret ("fields." ++ f) (.str v) =
        .obj [("fields", .obj [(a, .obj [(b, .str v)])])] := by
      rw [hret, lodashSet, hcast]
      exact setPath_three_fresh "fields" a b (.str v) ha hb
    refine ⟨hstep.trans hset, ?_⟩
    rw [hstep, hset]
    simp [getPath, childGet, objGet, hne]
  · intro options env fs info a b hcast ha hb hne hh hex
    have hstep : (fileHandler options env fs (.obj []) info).ret =
        lodashSet (.obj []) ("files." ++ info.fieldname)
          (.obj [("file", .str (destPath options env info)),
                 ("mimetype", .str info.mimetype)]) := by
      simp [fileHandler, hh, hex]
    have hset : lodashSet (.obj []) ("files." ++ info.fieldname)
          (.obj [("file", .str (destPath options env info)),
                 ("mimetype", .str info.mimetype)]) =
        .obj [("files", .obj [(a, .obj [(b,
          .obj [("file", .str (destPath options env info)),
                ("mimetype", .str info.mimetype)])])])] := by
      rw [lodashSet, hcast]
      exact setPath_three_fresh "files" a b _ ha hb
    refine ⟨hstep.trans hset, ?_⟩
    rw [hstep, hset]
    simp [getPath, childGet, objGet, hne]
  · intro k v a b hcast ha hb hne
    have hhas : lodashHas (.obj []) (toLowerM k) = false := by
      rw [lodashHas, hcast]
      simp [getPath, childGet, objGet]
    have hstep : headerStep (.obj []) k v = lodashSet (.obj []) (toLowerM k) (.str v) := by
      simp [headerStep, hhas]
    have hset : lodashSet (.obj []) (toLowerM k) (.str v) =
        .obj [(a, .obj [(b, .str v)])] := by
      rw [lodashSet, hcast]
      exact setPath_two_fresh a b (.str v) hb
    refine ⟨hstep.trans hset, ?_⟩
    rw [hstep, hset]
    rw [getPath_single_miss a (toLowerM k) _ hne]

/-- C10 witness: the field name `a.b`, a file field named `a.b` and the
header name `A.B` all produce nested mappings with no literal dotted key. -/
theorem client_names_are_deep_paths_witness :
    ((fetchStep bodyOnlyOptions sampleEnv ⟨emptyFs, .obj [], none⟩ (.field "a.b" "v")).ret =
        .obj [("fields", .obj [("a", .obj [("b", .str "v")])])] ∧
      getPath (fetchStep bodyOnlyOptions sampleEnv ⟨emptyFs, .obj [], none⟩
        (.field "a.b" "v")).ret ["fields", "a.b"] = none)
  ∧ ((fileHandler bodyOnlyOptions sampleEnv emptyFs (.obj []) dottedInfo).ret =
        .obj [("files", .obj [("a", .obj [("b",
          .obj [("file", .str (destPath bodyOnlyOptions sampleEnv dottedInfo)),
                ("mimetype", .str dottedInfo.mimetype)])])])] ∧
      getPath (fileHandler bodyOnlyOptions sampleEnv emptyFs (.obj []) dottedInfo).ret
        ["files", dottedInfo.fieldname] = none)
  ∧ (headerStep (.obj []) "A.B" "x" = .obj [("a", .obj [("b", .str "x")])] ∧
      getPath (headerStep (.obj []) "A.B" "x") [toLowerM "A.B"] = none) :=
  ⟨client_names_are_deep_paths.1 bodyOnlyOptions sampleEnv ⟨emptyFs, .obj [], none⟩
      "a.b" "v" "a" "b" (by decide) (by decide) (by decide) (by decide) rfl,
   client_names_are_deep_paths.2.1 bodyOnlyOptions sampleEnv emptyFs dottedInfo
      "a" "b" (by decide) (by decide) (by decide) (by decide) rfl rfl,
   client_names_are_deep_paths.2.2 "A.B" "x" "a" "b" (by decide) (by decide)
      (by decide) (by decide)⟩
